import Mathlib

set_option maxRecDepth 400000

/-!
Shallow embedding of the dynamic-programming MDP solvers from
`Solving_MDPs_with_PI_and_VI.ipynb`: policy evaluation, policy
improvement (with its `policy_constructor` argmax step), policy
iteration and value iteration.

Modelling conventions:
* Python floats become rationals (`ℚ`), so arithmetic is exact.
* The dictionary keyed by `0..n-1` becomes a list indexed by position;
  `d[k]` becomes `l.getD k default`.
* `while True` loops become fuel-indexed recursions returning `Option`;
  a run of the Python loop that terminates corresponds to a fuel value
  for which the Lean function returns `some`.
* `np.random.randint(0, action_space, size=state_space)` becomes an
  explicit draw function `draw : ℕ → ℕ` reduced mod `action_space`.
* For the frame claim (the MDP is only read, never written), `_fr`
  variants thread the MDP through every call and loop iteration and
  return it alongside the result, so that "the MDP after the call" is
  an explicit output that can be compared with the input.
-/

namespace MDPSolve

/-- One outcome tuple `(transition_probability, state_prime, reward, done)`
of the transition model. -/
structure Outcome where
  prob : ℚ
  next : ℕ
  reward : ℚ
  done : Bool
deriving DecidableEq, Repr

/-- The MDP transition table: state ↦ action ↦ list of outcomes. -/
abbrev MDP := List (List (List Outcome))

/-- A value function: one rational per state, indexed by state. -/
abbrev ValueFn := List ℚ

/-- A deterministic policy: one action per state, indexed by state. -/
abbrev Policy := List ℕ

/-- Mirrors `action_space = len(mdp[0])`. -/
def action_space (mdp : MDP) : ℕ := (mdp.getD 0 []).length

/-- The accumulation
`v += transition_probability * (reward + gamma * V[state_prime] * (not done))`
over a list of outcomes. -/
def backup (gamma : ℚ) (V : ValueFn) (outs : List Outcome) : ℚ :=
  (outs.map (fun o =>
    o.prob * (o.reward + gamma * V.getD o.next 0 * (if o.done then 0 else 1)))).sum

/-- Mirrors `np.max(np.absolute(v - w))`, with `0` for the empty case. -/
def maxAbsDiff (v w : ValueFn) : ℚ :=
  (List.zipWith (fun a b => |a - b|) v w).foldl max 0

/-- One full synchronous sweep of the Bellman expectation update:
the inner `for state in range(state_space)` loop of `policy_evaluation`. -/
def evalSweep (pi : Policy) (mdp : MDP) (gamma : ℚ) (V : ValueFn) : ValueFn :=
  (List.range mdp.length).map (fun s =>
    backup gamma V ((mdp.getD s []).getD (pi.getD s 0) []))

/-- The `while True` loop of `policy_evaluation`, fuel-indexed. -/
def policy_evaluation_loop : ℕ → Policy → MDP → ℚ → ℚ → ValueFn → Option ValueFn
  | 0, _, _, _, _, _ => none
  | fuel + 1, pi, mdp, gamma, theta, state_values =>
    let current_values := evalSweep pi mdp gamma state_values
    if maxAbsDiff state_values current_values < theta then some current_values
    else policy_evaluation_loop fuel pi mdp gamma theta current_values

/-- Mirrors `policy_evaluation(pi, mdp, gamma, theta)`: the value function
of policy `pi`, iterating from `np.zeros(state_space)`. -/
def policy_evaluation (fuel : ℕ) (pi : Policy) (mdp : MDP) (gamma theta : ℚ) :
    Option ValueFn :=
  policy_evaluation_loop fuel pi mdp gamma theta (List.replicate mdp.length 0)

/-- The scan underlying `np.argmax`: keeps the current best index and value,
updating only on a strictly greater value (first maximum wins). -/
def argmaxAux : ℕ → ℚ → ℕ → List ℚ → ℕ × ℚ
  | best, bestVal, _, [] => (best, bestVal)
  | best, bestVal, i, y :: ys =>
    if bestVal < y then argmaxAux i y (i + 1) ys
    else argmaxAux best bestVal (i + 1) ys

/-- Mirrors `np.argmax` on one row: index of the first maximal entry
(`0` on `[]`). -/
def argmaxIdx : List ℚ → ℕ
  | [] => 0
  | x :: xs => (argmaxAux 0 x 1 xs).1

/-- Mirrors `policy_constructor(Q_vals)`: per-state argmax over the Q table. -/
def policy_constructor (Q_vals : List (List ℚ)) : Policy :=
  Q_vals.map argmaxIdx

/-- The Q table computed by the nested state/action loops of
`policy_improvement` and `value_iteration`. -/
def qVals (mdp : MDP) (gamma : ℚ) (V : ValueFn) : List (List ℚ) :=
  (List.range mdp.length).map (fun s =>
    (List.range (action_space mdp)).map (fun a =>
      backup gamma V ((mdp.getD s []).getD a [])))

/-- Mirrors `policy_improvement(value_function, mdp, gamma)`. -/
def policy_improvement (value_function : ValueFn) (mdp : MDP) (gamma : ℚ) : Policy :=
  policy_constructor (qVals mdp gamma value_function)

/-- Mirrors `np.max` of one row (`0` on `[]`). -/
def listMax : List ℚ → ℚ
  | [] => 0
  | x :: xs => xs.foldl max x

/-- The `while True` loop of `value_iteration`, fuel-indexed.  On the break
the current `value_function` (the iterate the final `Q_vals` was computed
from) is returned together with `policy_constructor(Q_vals)`. -/
def value_iteration_loop : ℕ → MDP → ℚ → ℚ → ValueFn → Option (Policy × ValueFn)
  | 0, _, _, _, _ => none
  | fuel + 1, mdp, gamma, theta, value_function =>
    let Q_vals := qVals mdp gamma value_function
    if maxAbsDiff value_function (Q_vals.map listMax) < theta then
      some (policy_constructor Q_vals, value_function)
    else value_iteration_loop fuel mdp gamma theta (Q_vals.map listMax)

/-- Mirrors `value_iteration(mdp, gamma, theta)`, iterating from `np.zeros`. -/
def value_iteration (fuel : ℕ) (mdp : MDP) (gamma theta : ℚ) :
    Option (Policy × ValueFn) :=
  value_iteration_loop fuel mdp gamma theta (List.replicate mdp.length 0)

/-- The random initial policy of `policy_iteration`, built in the source by
enumerating `np.random.randint(0, action_space, size=state_space)`, with the
random draw made explicit (`randint(0, A)` yields values `< A`). -/
def initial_policy (draw : ℕ → ℕ) (mdp : MDP) : Policy :=
  (List.range mdp.length).map (fun s => draw s % action_space mdp)

/-- The `while True` loop of `policy_iteration`, fuel-indexed; `evalFuel`
is the fuel handed to each inner `policy_evaluation` call. -/
def policy_iteration_loop : ℕ → ℕ → MDP → ℚ → ℚ → Policy → Option (Policy × ValueFn)
  | 0, _, _, _, _, _ => none
  | fuel + 1, evalFuel, mdp, gamma, theta, current_policy =>
    match policy_evaluation evalFuel current_policy mdp gamma theta with
    | none => none
    | some value_function =>
      let improved_policy := policy_improvement value_function mdp gamma
      if current_policy = improved_policy then some (improved_policy, value_function)
      else policy_iteration_loop fuel evalFuel mdp gamma theta improved_policy

/-- Mirrors `policy_iteration(mdp, gamma, theta)` with the random draw
explicit. -/
def policy_iteration (fuel evalFuel : ℕ) (draw : ℕ → ℕ) (mdp : MDP)
    (gamma theta : ℚ) : Option (Policy × ValueFn) :=
  policy_iteration_loop fuel evalFuel mdp gamma theta (initial_policy draw mdp)

/-- The `slippery_bandit_walk` environment from the notebook. -/
def slippery_bandit_walk : MDP :=
  [ [ [⟨1, 0, 0, true⟩], [⟨1, 0, 0, true⟩] ],
    [ [⟨4/5, 0, 0, true⟩, ⟨1/5, 2, 0, false⟩],
      [⟨4/5, 2, 0, false⟩, ⟨1/5, 0, 0, true⟩] ],
    [ [⟨4/5, 1, 0, false⟩, ⟨1/5, 3, 0, false⟩],
      [⟨4/5, 3, 0, false⟩, ⟨1/5, 1, 0, false⟩] ],
    [ [⟨4/5, 2, 0, false⟩, ⟨1/5, 4, 1, true⟩],
      [⟨4/5, 4, 1, true⟩, ⟨1/5, 2, 0, false⟩] ],
    [ [⟨1, 4, 0, true⟩], [⟨1, 4, 0, true⟩] ] ]

/-- Convergence threshold `1e-10` of the notebook runs. -/
def theta0 : ℚ := 1 / 10 ^ 10

/-- A 1-state, 1-action MDP whose single outcome is
`(probability 1, next_state 0, reward 0, terminal true)`. -/
def singleTerminal : MDP := [[[⟨1, 0, 0, true⟩]]]

/-- A 1-state, 1-action MDP whose single outcome is a probability-1
non-terminal self-loop with reward 1 (the value diverges under `gamma = 1`). -/
def selfLoopReward : MDP := [[[⟨1, 0, 1, false⟩]]]

/-- A 1-state, 1-action MDP whose single outcome is terminal with reward
`1/2`; with `theta = 1` value iteration breaks on the very first sweep. -/
def halfReward : MDP := [[[⟨1, 0, 1/2, true⟩]]]

/-- The optimal Slippery Bandit Walk policy stated by the spec. -/
def sbwOptimalPolicy : Policy := [0, 1, 1, 1, 0]

/-- The Slippery Bandit Walk value function stated by the spec,
to four decimal places. -/
def sbwValueTarget : ValueFn := [0, 7529/10000, 9412/10000, 9882/10000, 0]

/-- Checks one solver result against the expected Slippery Bandit Walk
output: optimal policy exactly, value function within `1/1000` per state. -/
def sbwRunCheck : Option (Policy × ValueFn) → Bool
  | none => false
  | some (p, V) => p == sbwOptimalPolicy && decide (maxAbsDiff V sbwValueTarget < 1/1000)

/-- State-threaded `policy_evaluation_loop`: the MDP an iteration finishes
with is handed to the next iteration and finally returned. -/
def policy_evaluation_loop_fr : ℕ → Policy → MDP → ℚ → ℚ → ValueFn → Option ValueFn × MDP
  | 0, _, mdp, _, _, _ => (none, mdp)
  | fuel + 1, pi, mdp, gamma, theta, state_values =>
    let current_values := evalSweep pi mdp gamma state_values
    if maxAbsDiff state_values current_values < theta then (some current_values, mdp)
    else policy_evaluation_loop_fr fuel pi mdp gamma theta current_values

/-- State-threaded `policy_evaluation`. -/
def policy_evaluation_fr (fuel : ℕ) (pi : Policy) (mdp : MDP) (gamma theta : ℚ) :
    Option ValueFn × MDP :=
  policy_evaluation_loop_fr fuel pi mdp gamma theta (List.replicate mdp.length 0)

/-- State-threaded `policy_improvement`. -/
def policy_improvement_fr (value_function : ValueFn) (mdp : MDP) (gamma : ℚ) :
    Policy × MDP :=
  (policy_constructor (qVals mdp gamma value_function), mdp)

/-- State-threaded `value_iteration_loop`. -/
def value_iteration_loop_fr : ℕ → MDP → ℚ → ℚ → ValueFn → Option (Policy × ValueFn) × MDP
  | 0, mdp, _, _, _ => (none, mdp)
  | fuel + 1, mdp, gamma, theta, value_function =>
    let Q_vals := qVals mdp gamma value_function
    if maxAbsDiff value_function (Q_vals.map listMax) < theta then
      (some (policy_constructor Q_vals, value_function), mdp)
    else value_iteration_loop_fr fuel mdp gamma theta (Q_vals.map listMax)

/-- State-threaded `value_iteration`. -/
def value_iteration_fr (fuel : ℕ) (mdp : MDP) (gamma theta : ℚ) :
    Option (Policy × ValueFn) × MDP :=
  value_iteration_loop_fr fuel mdp gamma theta (List.replicate mdp.length 0)

/-- State-threaded `policy_iteration_loop`: the MDP returned by the inner
evaluation call is the one passed to improvement, and so on. -/
def policy_iteration_loop_fr : ℕ → ℕ → MDP → ℚ → ℚ → Policy → Option (Policy × ValueFn) × MDP
  | 0, _, mdp, _, _, _ => (none, mdp)
  | fuel + 1, evalFuel, mdp, gamma, theta, current_policy =>
    match policy_evaluation_fr evalFuel current_policy mdp gamma theta with
    | (none, mdp1) => (none, mdp1)
    | (some value_function, mdp1) =>
      match policy_improvement_fr value_function mdp1 gamma with
      | (improved_policy, mdp2) =>
        if current_policy = improved_policy then
          (some (improved_policy, value_function), mdp2)
        else policy_iteration_loop_fr fuel evalFuel mdp2 gamma theta improved_policy

/-- State-threaded `policy_iteration`. -/
def policy_iteration_fr (fuel evalFuel : ℕ) (draw : ℕ → ℕ) (mdp : MDP)
    (gamma theta : ℚ) : Option (Policy × ValueFn) × MDP :=
  policy_iteration_loop_fr fuel evalFuel mdp gamma theta (initial_policy draw mdp)

end MDPSolve

namespace MDPSolve

/-- Folding `max` from `a` stays below `t` iff `a` and every element do. -/
theorem foldl_max_lt_iff (l : List ℚ) : ∀ a t : ℚ,
    l.foldl max a < t ↔ a < t ∧ ∀ x ∈ l, x < t := by
  induction l with
  | nil => intro a t; simp
  | cons y ys ih =>
    intro a t
    simp only [List.foldl_cons, ih, max_lt_iff, List.mem_cons]
    constructor
    · rintro ⟨⟨h1, h2⟩, h3⟩
      exact ⟨h1, fun x hx => hx.elim (fun hxy => hxy ▸ h2) (h3 x)⟩
    · rintro ⟨h1, h2⟩
      exact ⟨⟨h1, h2 y (Or.inl rfl)⟩, fun x hx => h2 x (Or.inr hx)⟩

/-- The start value bounds a `max`-fold from below. -/
theorem le_foldl_max (l : List ℚ) : ∀ a : ℚ, a ≤ l.foldl max a := by
  induction l with
  | nil => intro a; simp
  | cons y ys ih => intro a; exact le_trans (le_max_left a y) (ih (max a y))

/-- Every element bounds a `max`-fold from below. -/
theorem mem_le_foldl_max (l : List ℚ) : ∀ a x : ℚ, x ∈ l → x ≤ l.foldl max a := by
  induction l with
  | nil => intro a x hx; cases hx
  | cons y ys ih =>
    intro a x hx
    rw [List.foldl_cons]
    rcases List.mem_cons.mp hx with h | h
    · rw [h]; exact le_trans (le_max_right a y) (le_foldl_max ys (max a y))
    · exact ih (max a y) x h

/-- The sup norm of a difference is nonnegative. -/
theorem maxAbsDiff_nonneg (v w : ValueFn) : 0 ≤ maxAbsDiff v w :=
  le_foldl_max _ 0

/-- Per-index distances are bounded by `maxAbsDiff` (equal lengths). -/
theorem abs_getD_sub_le_maxAbsDiff (v w : ValueFn) (hlen : v.length = w.length) (n : ℕ) :
    |v.getD n 0 - w.getD n 0| ≤ maxAbsDiff v w := by
  by_cases hn : n < v.length
  · have hzip : n < (List.zipWith (fun a b => |a - b|) v w).length := by
      simp [List.length_zipWith, hlen.symm ▸ hn, hn, ← hlen]
    have hmem : |v.getD n 0 - w.getD n 0| ∈ List.zipWith (fun a b => |a - b|) v w := by
      rw [List.getD_eq_getElem v 0 hn, List.getD_eq_getElem w 0 (hlen ▸ hn)]
      exact List.mem_iff_getElem.mpr ⟨n, hzip, by simp⟩
    exact mem_le_foldl_max _ 0 _ hmem
  · rw [List.getD_eq_default _ _ (le_of_not_lt hn),
      List.getD_eq_default _ _ (hlen ▸ le_of_not_lt hn)]
    simpa using maxAbsDiff_nonneg v w

/-- One sweep produces one value per state. -/
theorem evalSweep_length (pi : Policy) (mdp : MDP) (gamma : ℚ) (V : ValueFn) :
    (evalSweep pi mdp gamma V).length = mdp.length := by
  simp [evalSweep]

/-- The per-state value of one sweep. -/
theorem evalSweep_getD (pi : Policy) (mdp : MDP) (gamma : ℚ) (V : ValueFn) (s : ℕ)
    (hs : s < mdp.length) :
    (evalSweep pi mdp gamma V).getD s 0 =
      backup gamma V ((mdp.getD s []).getD (pi.getD s 0) []) := by
  have h : s < (evalSweep pi mdp gamma V).length := by
    rw [evalSweep_length]; exact hs
  rw [List.getD_eq_getElem _ _ h]
  simp [evalSweep]

end MDPSolve

namespace MDPSolve

/-- One Bellman backup is Lipschitz in the value function: the difference is
bounded by the probability mass times a uniform bound on per-state
differences, for nonnegative probabilities and `gamma` in `[0, 1]`. -/
theorem backup_sub_abs_le (gamma : ℚ) (v w : ValueFn) (outs : List Outcome) (B : ℚ)
    (hg0 : 0 ≤ gamma) (hg1 : gamma ≤ 1) (hB : 0 ≤ B)
    (hp : ∀ o ∈ outs, 0 ≤ o.prob)
    (hd : ∀ n : ℕ, |v.getD n 0 - w.getD n 0| ≤ B) :
    |backup gamma v outs - backup gamma w outs| ≤ ((outs.map (fun o => o.prob)).sum) * B := by
  induction outs with
  | nil => simp [backup]
  | cons o os ih =>
    have hpo : 0 ≤ o.prob := hp o (List.mem_cons_self o os)
    have hps : ∀ x ∈ os, 0 ≤ x.prob := fun x hx => hp x (List.mem_cons_of_mem o hx)
    have hterm :
        |o.prob * (o.reward + gamma * v.getD o.next 0 * (if o.done then 0 else 1)) -
          o.prob * (o.reward + gamma * w.getD o.next 0 * (if o.done then 0 else 1))| ≤
        o.prob * B := by
      by_cases hdone : o.done
      · simp [hdone, mul_nonneg hpo hB]
      · have heq :
            o.prob * (o.reward + gamma * v.getD o.next 0 * (if o.done then 0 else 1)) -
              o.prob * (o.reward + gamma * w.getD o.next 0 * (if o.done then 0 else 1)) =
            o.prob * (gamma * (v.getD o.next 0 - w.getD o.next 0)) := by
          simp [hdone]; ring
        rw [heq, abs_mul, abs_mul, abs_of_nonneg hpo, abs_of_nonneg hg0]
        have h1 : gamma * |v.getD o.next 0 - w.getD o.next 0| ≤ 1 * B :=
          mul_le_mul hg1 (hd o.next) (abs_nonneg _) zero_le_one
        have h2 : gamma * |v.getD o.next 0 - w.getD o.next 0| ≤ B := by linarith
        exact mul_le_mul_of_nonneg_left h2 hpo
    have hcons : backup gamma v (o :: os) - backup gamma w (o :: os) =
        (o.prob * (o.reward + gamma * v.getD o.next 0 * (if o.done then 0 else 1)) -
          o.prob * (o.reward + gamma * w.getD o.next 0 * (if o.done then 0 else 1))) +
        (backup gamma v os - backup gamma w os) := by
      simp [backup]; ring
    calc |backup gamma v (o :: os) - backup gamma w (o :: os)|
        ≤ |o.prob * (o.reward + gamma * v.getD o.next 0 * (if o.done then 0 else 1)) -
            o.prob * (o.reward + gamma * w.getD o.next 0 * (if o.done then 0 else 1))| +
          |backup gamma v os - backup gamma w os| := by
          rw [hcons]; exact abs_add _ _
      _ ≤ o.prob * B + ((os.map (fun o => o.prob)).sum) * B := add_le_add hterm (ih hps)
      _ = (((o :: os).map (fun o => o.prob)).sum) * B := by simp; ring

/-- With probability mass at most one, one backup moves by at most the
uniform per-state bound. -/
theorem backup_sub_abs_le_of_mass_le_one (gamma : ℚ) (v w : ValueFn)
    (outs : List Outcome) (B : ℚ)
    (hg0 : 0 ≤ gamma) (hg1 : gamma ≤ 1) (hB : 0 ≤ B)
    (hp : ∀ o ∈ outs, 0 ≤ o.prob)
    (hsum : (outs.map (fun o => o.prob)).sum ≤ 1)
    (hd : ∀ n : ℕ, |v.getD n 0 - w.getD n 0| ≤ B) :
    |backup gamma v outs - backup gamma w outs| ≤ B :=
  le_trans (backup_sub_abs_le gamma v w outs B hg0 hg1 hB hp hd)
    (mul_le_of_le_one_left hB hsum)

/-- Convergence property of the evaluation loop: on a `some` result the
returned iterate moves by less than `theta` at every state under one more
sweep, given the data-model invariants on the rows the policy selects. -/
theorem policy_evaluation_loop_post (pi : Policy) (mdp : MDP) (gamma theta : ℚ)
    (hg0 : 0 ≤ gamma) (hg1 : gamma ≤ 1)
    (hp : ∀ s < mdp.length, ∀ o ∈ (mdp.getD s []).getD (pi.getD s 0) [], 0 ≤ o.prob)
    (hsum : ∀ s < mdp.length,
      ((((mdp.getD s []).getD (pi.getD s 0) []).map (fun o => o.prob)).sum) ≤ 1) :
    ∀ (fuel : ℕ) (W V : ValueFn), W.length = mdp.length →
      policy_evaluation_loop fuel pi mdp gamma theta W = some V →
      ∀ s < mdp.length, |V.getD s 0 - (evalSweep pi mdp gamma V).getD s 0| < theta := by
  intro fuel
  induction fuel with
  | zero => intro W V _ h; simp [policy_evaluation_loop] at h
  | succ n ih =>
    intro W V hW h s hs
    rw [policy_evaluation_loop] at h
    by_cases hc : maxAbsDiff W (evalSweep pi mdp gamma W) < theta
    · rw [if_pos hc] at h
      have hV : V = evalSweep pi mdp gamma W := (Option.some.inj h).symm
      subst hV
      have hWlen : W.length = (evalSweep pi mdp gamma W).length := by
        rw [evalSweep_length, hW]
      have hB := maxAbsDiff_nonneg W (evalSweep pi mdp gamma W)
      have hd : ∀ n : ℕ, |W.getD n 0 - (evalSweep pi mdp gamma W).getD n 0| ≤
          maxAbsDiff W (evalSweep pi mdp gamma W) :=
        abs_getD_sub_le_maxAbsDiff W (evalSweep pi mdp gamma W) hWlen
      rw [evalSweep_getD pi mdp gamma _ s hs,
        evalSweep_getD pi mdp gamma _ s hs]
      calc |backup gamma W ((mdp.getD s []).getD (pi.getD s 0) []) -
              backup gamma (evalSweep pi mdp gamma W) ((mdp.getD s []).getD (pi.getD s 0) [])|
          ≤ maxAbsDiff W (evalSweep pi mdp gamma W) :=
            backup_sub_abs_le_of_mass_le_one gamma W (evalSweep pi mdp gamma W) _ _
              hg0 hg1 hB (hp s hs) (hsum s hs) hd
        _ < theta := hc
    · rw [if_neg hc] at h
      exact ih (evalSweep pi mdp gamma W) V (by rw [evalSweep_length]) h s hs

end MDPSolve

namespace MDPSolve

/-- Invariant of the first-max scan: starting from a best index strictly
before the scan position with matching value, the scan returns an in-range
index of the first maximal entry. -/
theorem argmaxAux_spec (l : List ℚ) : ∀ (ys : List ℚ) (best i : ℕ) (bestVal : ℚ),
    l.drop i = ys → i ≤ l.length → best < i → l.getD best 0 = bestVal →
    (∀ j < i, l.getD j 0 ≤ bestVal) → (∀ j < best, l.getD j 0 < bestVal) →
    ((argmaxAux best bestVal i ys).1 < l.length ∧
     l.getD (argmaxAux best bestVal i ys).1 0 = (argmaxAux best bestVal i ys).2 ∧
     (∀ j < l.length, l.getD j 0 ≤ (argmaxAux best bestVal i ys).2) ∧
     (∀ j < (argmaxAux best bestVal i ys).1, l.getD j 0 < (argmaxAux best bestVal i ys).2)) := by
  intro ys
  induction ys with
  | nil =>
    intro best i bestVal hdrop hile hbi hval hmax hfirst
    have hlen : l.length ≤ i := by
      by_contra hcon
      push_neg at hcon
      have := List.drop_eq_getElem_cons hcon
      rw [hdrop] at this
      cases this
    have hieq : i = l.length := le_antisymm hile hlen
    subst hieq
    exact ⟨hbi, hval, hmax, hfirst⟩
  | cons y ys ih =>
    intro best i bestVal hdrop hile hbi hval hmax hfirst
    have hilt : i < l.length := by
      by_contra hcon
      push_neg at hcon
      rw [List.drop_eq_nil_of_le hcon] at hdrop
      cases hdrop
    have hcons := List.drop_eq_getElem_cons hilt
    rw [hdrop] at hcons
    have hy : y = l[i] := by injection hcons
    have hys : l.drop (i + 1) = ys := by injection hcons with _ h2; exact h2.symm
    have hyD : l.getD i 0 = y := by rw [List.getD_eq_getElem l 0 hilt, hy]
    rw [argmaxAux]
    by_cases hlt : bestVal < y
    · rw [if_pos hlt]
      refine ih i (i + 1) y hys hilt (Nat.lt_succ_self i) hyD ?_ ?_
      · intro j hj
        rcases Nat.lt_succ_iff_lt_or_eq.mp hj with hji | hje
        · exact le_of_lt (lt_of_le_of_lt (hmax j hji) hlt)
        · rw [hje, hyD]
      · intro j hj
        exact lt_of_le_of_lt (hmax j hj) hlt
    · rw [if_neg hlt]
      push_neg at hlt
      refine ih best (i + 1) bestVal hys hilt (Nat.lt_succ_of_lt hbi) hval ?_ hfirst
      intro j hj
      rcases Nat.lt_succ_iff_lt_or_eq.mp hj with hji | hje
      · exact hmax j hji
      · rw [hje, hyD]; exact hlt

/-- On a nonempty row, `argmaxIdx` is in range, attains the maximum, and
every strictly earlier entry is strictly below it (first maximum wins). -/
theorem argmaxIdx_spec (l : List ℚ) (hl : l ≠ []) :
    argmaxIdx l < l.length ∧
    (∀ j < l.length, l.getD j 0 ≤ l.getD (argmaxIdx l) 0) ∧
    (∀ j < argmaxIdx l, l.getD j 0 < l.getD (argmaxIdx l) 0) := by
  cases l with
  | nil => exact absurd rfl hl
  | cons x xs =>
    have h := argmaxAux_spec (x :: xs) xs 0 1 x rfl
      (by simp [Nat.succ_le_iff]) Nat.one_pos rfl
      (by intro j hj; interval_cases j; simp)
      (by intro j hj; omega)
    obtain ⟨h1, h2, h3, h4⟩ := h
    refine ⟨h1, ?_, ?_⟩
    · intro j hj
      rw [argmaxIdx, h2]
      exact h3 j hj
    · intro j hj
      rw [argmaxIdx, h2]
      exact h4 j hj

end MDPSolve

namespace MDPSolve

/-- The Q table has one row per state. -/
theorem qVals_length (mdp : MDP) (gamma : ℚ) (V : ValueFn) :
    (qVals mdp gamma V).length = mdp.length := by
  simp [qVals]

/-- The per-state row of the Q table. -/
theorem qVals_getD (mdp : MDP) (gamma : ℚ) (V : ValueFn) (s : ℕ) (hs : s < mdp.length) :
    (qVals mdp gamma V).getD s [] =
      (List.range (action_space mdp)).map (fun a =>
        backup gamma V ((mdp.getD s []).getD a [])) := by
  have h : s < (qVals mdp gamma V).length := by rw [qVals_length]; exact hs
  rw [List.getD_eq_getElem _ _ h]
  simp [qVals]

/-- Every row of the Q table has one entry per action. -/
theorem qVals_row_length (mdp : MDP) (gamma : ℚ) (V : ValueFn) :
    ∀ row ∈ qVals mdp gamma V, row.length = action_space mdp := by
  intro row hrow
  obtain ⟨s, _, hrow⟩ := List.mem_map.mp hrow
  rw [← hrow]
  simp

/-- The constructed policy has one action per row. -/
theorem policy_constructor_length (Q_vals : List (List ℚ)) :
    (policy_constructor Q_vals).length = Q_vals.length := by
  simp [policy_constructor]

/-- The constructed policy takes the row argmax at every state. -/
theorem policy_constructor_getD (Q_vals : List (List ℚ)) (s : ℕ) (hs : s < Q_vals.length) :
    (policy_constructor Q_vals).getD s 0 = argmaxIdx (Q_vals.getD s []) := by
  have h : s < (policy_constructor Q_vals).length := by
    rw [policy_constructor_length]; exact hs
  rw [List.getD_eq_getElem _ _ h, List.getD_eq_getElem _ _ hs]
  simp [policy_constructor]

/-- With a rectangular nonempty action space, every constructed action is
in range. -/
theorem policy_constructor_mem_lt (Q_vals : List (List ℚ)) (A : ℕ) (hA : 0 < A)
    (hrow : ∀ row ∈ Q_vals, row.length = A) :
    ∀ a ∈ policy_constructor Q_vals, a < A := by
  intro a ha
  obtain ⟨row, hrowmem, hval⟩ := List.mem_map.mp ha
  have hlen : row.length = A := hrow row hrowmem
  have hne : row ≠ [] := by
    intro hnil
    rw [hnil] at hlen
    simp at hlen
    omega
  have := (argmaxIdx_spec row hne).1
  omega

/-- Postcondition of the value-iteration loop on a `some` result: the policy
is constructed from the Q table of the returned value function, and the
returned value function is within `theta` of that table's column maxima. -/
theorem value_iteration_loop_post (mdp : MDP) (gamma theta : ℚ) :
    ∀ (fuel : ℕ) (W : ValueFn) (pol : Policy) (V : ValueFn),
      value_iteration_loop fuel mdp gamma theta W = some (pol, V) →
      pol = policy_constructor (qVals mdp gamma V) ∧
      maxAbsDiff V ((qVals mdp gamma V).map listMax) < theta := by
  intro fuel
  induction fuel with
  | zero => intro W pol V h; simp [value_iteration_loop] at h
  | succ n ih =>
    intro W pol V h
    simp only [value_iteration_loop] at h
    split at h
    · simp only [Option.some.injEq, Prod.mk.injEq] at h
      obtain ⟨hpol, hV⟩ := h
      subst hV
      subst hpol
      exact ⟨rfl, by assumption⟩
    · exact ih _ pol V h

/-- Postcondition of the policy-iteration loop on a `some` result: the
returned policy improves the returned value function, and the returned value
function is the evaluation of the returned policy. -/
theorem policy_iteration_loop_post (evalFuel : ℕ) (mdp : MDP) (gamma theta : ℚ) :
    ∀ (fuel : ℕ) (current pol : Policy) (V : ValueFn),
      policy_iteration_loop fuel evalFuel mdp gamma theta current = some (pol, V) →
      pol = policy_improvement V mdp gamma ∧
      policy_evaluation evalFuel pol mdp gamma theta = some V := by
  intro fuel
  induction fuel with
  | zero => intro current pol V h; simp [policy_iteration_loop] at h
  | succ n ih =>
    intro current pol V h
    rw [policy_iteration_loop] at h
    cases heval : policy_evaluation evalFuel current mdp gamma theta with
    | none => rw [heval] at h; cases h
    | some W =>
      rw [heval] at h
      simp only at h
      split at h
      · simp only [Option.some.injEq, Prod.mk.injEq] at h
        obtain ⟨hpol, hV⟩ := h
        subst hV
        subst hpol
        refine ⟨rfl, ?_⟩
        rename_i hcond
        rw [← hcond]
        exact heval
      · exact ih _ pol V h

end MDPSolve

namespace MDPSolve

/-- The threaded evaluation loop returns the MDP unchanged and computes the
same result as the plain loop. -/
theorem policy_evaluation_loop_fr_spec (pi : Policy) (mdp : MDP) (gamma theta : ℚ) :
    ∀ (fuel : ℕ) (V : ValueFn),
      (policy_evaluation_loop_fr fuel pi mdp gamma theta V).2 = mdp ∧
      (policy_evaluation_loop_fr fuel pi mdp gamma theta V).1 =
        policy_evaluation_loop fuel pi mdp gamma theta V := by
  intro fuel
  induction fuel with
  | zero => intro V; exact ⟨rfl, rfl⟩
  | succ n ih =>
    intro V
    rw [policy_evaluation_loop_fr, policy_evaluation_loop]
    by_cases hc : maxAbsDiff V (evalSweep pi mdp gamma V) < theta
    · rw [if_pos hc, if_pos hc]
      exact ⟨rfl, rfl⟩
    · rw [if_neg hc, if_neg hc]
      exact ih (evalSweep pi mdp gamma V)

/-- The threaded value-iteration loop returns the MDP unchanged and computes
the same result as the plain loop. -/
theorem value_iteration_loop_fr_spec (mdp : MDP) (gamma theta : ℚ) :
    ∀ (fuel : ℕ) (V : ValueFn),
      (value_iteration_loop_fr fuel mdp gamma theta V).2 = mdp ∧
      (value_iteration_loop_fr fuel mdp gamma theta V).1 =
        value_iteration_loop fuel mdp gamma theta V := by
  intro fuel
  induction fuel with
  | zero => intro V; exact ⟨rfl, rfl⟩
  | succ n ih =>
    intro V
    rw [value_iteration_loop_fr, value_iteration_loop]
    by_cases hc : maxAbsDiff V ((qVals mdp gamma V).map listMax) < theta
    · rw [if_pos hc, if_pos hc]
      exact ⟨rfl, rfl⟩
    · rw [if_neg hc, if_neg hc]
      exact ih ((qVals mdp gamma V).map listMax)

/-- The threaded policy-iteration loop returns the MDP unchanged and computes
the same result as the plain loop. -/
theorem policy_iteration_loop_fr_spec (evalFuel : ℕ) (mdp : MDP) (gamma theta : ℚ) :
    ∀ (fuel : ℕ) (current : Policy),
      (policy_iteration_loop_fr fuel evalFuel mdp gamma theta current).2 = mdp ∧
      (policy_iteration_loop_fr fuel evalFuel mdp gamma theta current).1 =
        policy_iteration_loop fuel evalFuel mdp gamma theta current := by
  intro fuel
  induction fuel with
  | zero => intro current; exact ⟨rfl, rfl⟩
  | succ n ih =>
    intro current
    have heq : policy_evaluation_fr evalFuel current mdp gamma theta =
        (policy_evaluation evalFuel current mdp gamma theta, mdp) := by
      have h := policy_evaluation_loop_fr_spec current mdp gamma theta evalFuel
        (List.replicate mdp.length 0)
      rw [policy_evaluation_fr, policy_evaluation]
      exact Prod.ext h.2 h.1
    rw [policy_iteration_loop_fr, policy_iteration_loop, heq]
    cases heval : policy_evaluation evalFuel current mdp gamma theta with
    | none => exact ⟨rfl, rfl⟩
    | some W =>
      simp only [policy_improvement_fr, policy_improvement]
      by_cases hcond : current = policy_constructor (qVals mdp gamma W)
      · rw [if_pos hcond, if_pos hcond]
        exact ⟨rfl, rfl⟩
      · rw [if_neg hcond, if_neg hcond]
        exact ih (policy_constructor (qVals mdp gamma W))

end MDPSolve

namespace MDPSolve

/-- Helper for the non-termination claim: under `gamma = 1` and `theta = 1`,
the evaluation loop on the rewarding self-loop never stops, from any
one-state start value. -/
theorem selfLoop_loop_none : ∀ (fuel : ℕ) (v0 : ℚ),
    policy_evaluation_loop fuel [0] selfLoopReward 1 1 [v0] = none := by
  intro fuel
  induction fuel with
  | zero => intro v0; rfl
  | succ n ih =>
    intro v0
    have hsweep : evalSweep [0] selfLoopReward 1 [v0] = [1 + v0] := by
      simp [evalSweep, selfLoopReward, backup, show List.range 1 = [0] from rfl]
    have hdiff : maxAbsDiff [v0] [1 + v0] = 1 := by
      have h1 : v0 - (1 + v0) = -1 := by ring
      simp [maxAbsDiff, h1]
    simp only [policy_evaluation_loop, hsweep, hdiff]
    rw [if_neg (lt_irrefl 1)]
    exact ih (1 + v0)

/-- C5: `policy_evaluation` imposes no iteration cap: on the 1-state MDP
whose single action is a probability-1 non-terminal self-loop with reward 1,
with `gamma = 1` and `theta = 1`, the loop returns for no amount of fuel,
i.e. the Python `while True` loop never terminates. -/
theorem claim_C5 : ∀ fuel : ℕ,
    policy_evaluation fuel [0] selfLoopReward 1 1 = none := by
  intro fuel
  show policy_evaluation_loop fuel [0] selfLoopReward 1 1 [0] = none
  exact selfLoop_loop_none fuel 0

/-- C7: on the 1-state, 1-action MDP whose single outcome is
`(1, 0, 0, terminal)`, `policy_evaluation` with the policy `[0]` and any
`theta > 0` converges with one unit of fuel — a single sweep — and returns
the value function `[0]`. -/
theorem claim_C7 (gamma theta : ℚ) (htheta : 0 < theta) :
    policy_evaluation 1 [0] singleTerminal gamma theta = some [0] := by
  have hsweep : evalSweep [0] singleTerminal gamma [0] = [0] := by
    simp [evalSweep, singleTerminal, backup, show List.range 1 = [0] from rfl]
  have hdiff : maxAbsDiff [(0 : ℚ)] [0] = 0 := by
    simp [maxAbsDiff]
  show policy_evaluation_loop 1 [0] singleTerminal gamma theta [0] = some [0]
  simp only [policy_evaluation_loop, hsweep, hdiff]
  rw [if_pos htheta]

/-- Witness for C7 at `gamma = 1`, `theta = 1`. -/
theorem claim_C7_witness :
    (0 : ℚ) < 1 ∧ policy_evaluation 1 [0] singleTerminal 1 1 = some [0] :=
  ⟨one_pos, claim_C7 1 1 one_pos⟩

/-- C2: whenever `policy_evaluation` terminates — for a policy defined on
all states, `gamma` in `[0,1]`, `theta > 0`, nonnegative outcome
probabilities summing to at most one on every row the policy selects — one
more full synchronous sweep of the Bellman expectation update changes every
state's value by strictly less than `theta`. -/
theorem claim_C2 (pi : Policy) (mdp : MDP) (gamma theta : ℚ) (fuel : ℕ) (V : ValueFn)
    (hpol : mdp.length ≤ pi.length)
    (hg0 : 0 ≤ gamma) (hg1 : gamma ≤ 1) (htheta : 0 < theta)
    (hp : ∀ s < mdp.length, ∀ o ∈ (mdp.getD s []).getD (pi.getD s 0) [], 0 ≤ o.prob)
    (hsum : ∀ s < mdp.length,
      ((((mdp.getD s []).getD (pi.getD s 0) []).map (fun o => o.prob)).sum) ≤ 1)
    (hterm : policy_evaluation fuel pi mdp gamma theta = some V) :
    ∀ s < mdp.length, |V.getD s 0 - (evalSweep pi mdp gamma V).getD s 0| < theta :=
  policy_evaluation_loop_post pi mdp gamma theta hg0 hg1 hp hsum fuel
    (List.replicate mdp.length 0) V (List.length_replicate _ _) hterm

/-- Witness for C2 on the single terminal state MDP. -/
theorem claim_C2_witness :
    |([0] : ValueFn).getD 0 0 - (evalSweep [0] singleTerminal 1 [0]).getD 0 0| < 1 :=
  claim_C2 [0] singleTerminal 1 1 1 [0]
    (by decide) zero_le_one le_rfl one_pos
    (by
      intro s hs o ho
      have hs0 : s = 0 := by simp [singleTerminal] at hs; omega
      subst hs0
      simp only [singleTerminal] at ho
      simp at ho
      rw [ho]
      exact zero_le_one)
    (by
      intro s hs
      have hs0 : s = 0 := by simp [singleTerminal] at hs; omega
      subst hs0
      simp [singleTerminal])
    (by with_unfolding_all rfl)
    0 (by decide)

end MDPSolve

namespace MDPSolve

/-- The action `policy_constructor` picks at state `s` is an in-range first
argmax of row `s` of the Q table. -/
theorem constructor_getD_argmax (mdp : MDP) (gamma : ℚ) (V : ValueFn) (s : ℕ)
    (hs : s < mdp.length) (hA : 0 < action_space mdp) :
    (policy_constructor (qVals mdp gamma V)).getD s 0 <
      ((qVals mdp gamma V).getD s []).length ∧
    (∀ a < ((qVals mdp gamma V).getD s []).length,
      ((qVals mdp gamma V).getD s []).getD a 0 ≤
        ((qVals mdp gamma V).getD s []).getD
          ((policy_constructor (qVals mdp gamma V)).getD s 0) 0) ∧
    (∀ a < (policy_constructor (qVals mdp gamma V)).getD s 0,
      ((qVals mdp gamma V).getD s []).getD a 0 <
        ((qVals mdp gamma V).getD s []).getD
          ((policy_constructor (qVals mdp gamma V)).getD s 0) 0) := by
  have hsQ : s < (qVals mdp gamma V).length := by rw [qVals_length]; exact hs
  have hrowlen : ((qVals mdp gamma V).getD s []).length = action_space mdp := by
    rw [qVals_getD mdp gamma V s hs]; simp
  have hne : (qVals mdp gamma V).getD s [] ≠ [] := by
    intro hnil
    rw [hnil] at hrowlen
    simp at hrowlen
    omega
  have hspec := argmaxIdx_spec _ hne
  rw [policy_constructor_getD _ _ hsQ]
  exact hspec

/-- C3: `policy_improvement` is a deterministic pure function — equal inputs
give equal policies — and at every state it selects the lowest-indexed
action among those maximizing that state's row of the Q table: the selected
action is in range, its Q value is maximal, and every lower-indexed action
has a strictly smaller Q value. -/
theorem claim_C3 (Va Vb : ValueFn) (mdpa mdpb : MDP) (ga gb : ℚ) (s : ℕ)
    (hV : Va = Vb) (hm : mdpa = mdpb) (hg : ga = gb)
    (hs : s < mdpa.length) (hA : 0 < action_space mdpa) :
    policy_improvement Va mdpa ga = policy_improvement Vb mdpb gb ∧
    ((policy_improvement Va mdpa ga).getD s 0 < ((qVals mdpa ga Va).getD s []).length ∧
     (∀ a < ((qVals mdpa ga Va).getD s []).length,
       ((qVals mdpa ga Va).getD s []).getD a 0 ≤
         ((qVals mdpa ga Va).getD s []).getD ((policy_improvement Va mdpa ga).getD s 0) 0) ∧
     (∀ a < (policy_improvement Va mdpa ga).getD s 0,
       ((qVals mdpa ga Va).getD s []).getD a 0 <
         ((qVals mdpa ga Va).getD s []).getD ((policy_improvement Va mdpa ga).getD s 0) 0)) := by
  subst hV
  subst hm
  subst hg
  exact ⟨rfl, constructor_getD_argmax mdpa ga Va s hs hA⟩

/-- Witness for C3 on the single terminal state MDP. -/
theorem claim_C3_witness :
    policy_improvement [0] singleTerminal 1 = policy_improvement [0] singleTerminal 1 ∧
    ((policy_improvement [0] singleTerminal 1).getD 0 0 <
       ((qVals singleTerminal 1 [0]).getD 0 []).length ∧
     (∀ a < ((qVals singleTerminal 1 [0]).getD 0 []).length,
       ((qVals singleTerminal 1 [0]).getD 0 []).getD a 0 ≤
         ((qVals singleTerminal 1 [0]).getD 0 []).getD
           ((policy_improvement [0] singleTerminal 1).getD 0 0) 0) ∧
     (∀ a < (policy_improvement [0] singleTerminal 1).getD 0 0,
       ((qVals singleTerminal 1 [0]).getD 0 []).getD a 0 <
         ((qVals singleTerminal 1 [0]).getD 0 []).getD
           ((policy_improvement [0] singleTerminal 1).getD 0 0) 0)) :=
  claim_C3 [0] [0] singleTerminal singleTerminal 1 1 0 rfl rfl rfl
    (by decide) (by decide)

end MDPSolve

namespace MDPSolve

/-- C1 counterexample: on the 1-state terminal MDP with reward `1/2` and
`theta = 1`, `value_iteration` (any fuel at least 1; shown with 5) breaks on
its first sweep and returns the value function `[0]` — yet the column maxima
of the Q table of that final sweep (`qVals` at the returned iterate) are
`[1/2] ≠ [0]`, so the returned value function is not `max_a Q[s][a]` of the
final sweep. -/
theorem claim_C1_counterexample :
    value_iteration 5 halfReward 1 1 = some ([0], [0]) ∧
    (qVals halfReward 1 [0]).map listMax ≠ ([0] : ValueFn) := by
  constructor
  · with_unfolding_all rfl
  · have hq : (qVals halfReward 1 [0]).map listMax = [1/2] := by
      with_unfolding_all rfl
    rw [hq]
    intro h
    injection h with h1 _
    norm_num at h1

/-- C1 (amended): whenever `value_iteration` terminates, the returned policy
is derived (by the first-argmax `policy_constructor`) from the Q table of
the final sweep, which is computed from the returned value function itself
— the pre-update iterate — and that iterate is within strictly less than
`theta` of the column maxima of that Q table (not equal to them). -/
theorem claim_C1_amended (mdp : MDP) (gamma theta : ℚ) (fuel : ℕ)
    (pol : Policy) (V : ValueFn)
    (h : value_iteration fuel mdp gamma theta = some (pol, V)) :
    pol = policy_constructor (qVals mdp gamma V) ∧
    maxAbsDiff V ((qVals mdp gamma V).map listMax) < theta :=
  value_iteration_loop_post mdp gamma theta fuel (List.replicate mdp.length 0) pol V h

/-- Witness for the amended C1 on the single terminal state MDP. -/
theorem claim_C1_witness :
    ([0] : Policy) = policy_constructor (qVals singleTerminal 1 ([0] : ValueFn)) ∧
    maxAbsDiff [0] ((qVals singleTerminal 1 [0]).map listMax) < 1 :=
  claim_C1_amended singleTerminal 1 1 1 [0] [0] (by with_unfolding_all rfl)

/-- C10: whenever `value_iteration` terminates (with a nonempty action
space), the returned pair is self-consistent: computing the Q table from the
returned value function itself, the returned policy picks at every state the
in-range lowest-indexed argmax of that state's row, and the returned value
function is within strictly less than `theta` of the column maxima. -/
theorem claim_C10 (mdp : MDP) (gamma theta : ℚ) (fuel : ℕ) (pol : Policy) (V : ValueFn)
    (h : value_iteration fuel mdp gamma theta = some (pol, V))
    (hA : 0 < action_space mdp) :
    maxAbsDiff V ((qVals mdp gamma V).map listMax) < theta ∧
    ∀ s < mdp.length,
      pol.getD s 0 < ((qVals mdp gamma V).getD s []).length ∧
      (∀ a < ((qVals mdp gamma V).getD s []).length,
        ((qVals mdp gamma V).getD s []).getD a 0 ≤
          ((qVals mdp gamma V).getD s []).getD (pol.getD s 0) 0) ∧
      (∀ a < pol.getD s 0,
        ((qVals mdp gamma V).getD s []).getD a 0 <
          ((qVals mdp gamma V).getD s []).getD (pol.getD s 0) 0) := by
  obtain ⟨hpol, hmax⟩ :=
    value_iteration_loop_post mdp gamma theta fuel (List.replicate mdp.length 0) pol V h
  refine ⟨hmax, ?_⟩
  intro s hs
  rw [hpol]
  exact constructor_getD_argmax mdp gamma V s hs hA

/-- Witness for C10 on the single terminal state MDP. -/
theorem claim_C10_witness :
    maxAbsDiff [0] ((qVals singleTerminal 1 ([0] : ValueFn)).map listMax) < 1 ∧
    ∀ s < singleTerminal.length,
      ([0] : Policy).getD s 0 < ((qVals singleTerminal 1 [0]).getD s []).length ∧
      (∀ a < ((qVals singleTerminal 1 [0]).getD s []).length,
        ((qVals singleTerminal 1 [0]).getD s []).getD a 0 ≤
          ((qVals singleTerminal 1 [0]).getD s []).getD (([0] : Policy).getD s 0) 0) ∧
      (∀ a < ([0] : Policy).getD s 0,
        ((qVals singleTerminal 1 [0]).getD s []).getD a 0 <
          ((qVals singleTerminal 1 [0]).getD s []).getD (([0] : Policy).getD s 0) 0) :=
  claim_C10 singleTerminal 1 1 1 [0] [0] (by with_unfolding_all rfl) (by decide)

/-- C4: whenever `policy_iteration` terminates it does so exactly at the
loop exit where the improvement candidate equals the current policy, so the
returned policy is the candidate, the returned value function is the one
computed by evaluating the current (equals returned) policy in that final
iteration, and hence re-evaluating the returned policy (same fuel)
reproduces the returned value function. -/
theorem claim_C4 (mdp : MDP) (gamma theta : ℚ) (fuel evalFuel : ℕ) (draw : ℕ → ℕ)
    (pol : Policy) (V : ValueFn)
    (h : policy_iteration fuel evalFuel draw mdp gamma theta = some (pol, V)) :
    pol = policy_improvement V mdp gamma ∧
    policy_evaluation evalFuel pol mdp gamma theta = some V :=
  policy_iteration_loop_post evalFuel mdp gamma theta fuel (initial_policy draw mdp) pol V h

/-- Witness for C4 on the single terminal state MDP. -/
theorem claim_C4_witness :
    ([0] : Policy) = policy_improvement [0] singleTerminal 1 ∧
    policy_evaluation 1 [0] singleTerminal 1 1 = some [0] :=
  claim_C4 singleTerminal 1 1 1 1 (fun _ => 0) [0] [0] (by with_unfolding_all rfl)

/-- C9: every policy the system produces is total and in range: the output
of `policy_improvement`, the random initial policy, and — whenever the
respective solver terminates — the policies returned by `policy_iteration`
and by `value_iteration`, each have exactly one action per state of the MDP,
every action below `action_space`.  Each producer's conclusion carries only
its own termination premise. -/
theorem claim_C9 (mdp : MDP) (gamma theta : ℚ) (V : ValueFn) (fuel evalFuel : ℕ)
    (draw : ℕ → ℕ) (polPI polVI : Policy) (WPI WVI : ValueFn)
    (hA : 0 < action_space mdp) :
    ((policy_improvement V mdp gamma).length = mdp.length ∧
      ∀ a ∈ policy_improvement V mdp gamma, a < action_space mdp) ∧
    ((initial_policy draw mdp).length = mdp.length ∧
      ∀ a ∈ initial_policy draw mdp, a < action_space mdp) ∧
    (policy_iteration fuel evalFuel draw mdp gamma theta = some (polPI, WPI) →
      polPI.length = mdp.length ∧ ∀ a ∈ polPI, a < action_space mdp) ∧
    (value_iteration fuel mdp gamma theta = some (polVI, WVI) →
      polVI.length = mdp.length ∧ ∀ a ∈ polVI, a < action_space mdp) := by
  have himp : ∀ U : ValueFn,
      (policy_improvement U mdp gamma).length = mdp.length ∧
      ∀ a ∈ policy_improvement U mdp gamma, a < action_space mdp := by
    intro U
    constructor
    · rw [policy_improvement, policy_constructor_length, qVals_length]
    · exact policy_constructor_mem_lt _ _ hA (qVals_row_length mdp gamma U)
  refine ⟨himp V, ⟨?_, ?_⟩, fun hPI => ?_, fun hVI => ?_⟩
  · simp [initial_policy]
  · intro a ha
    obtain ⟨s, _, hval⟩ := List.mem_map.mp ha
    rw [← hval]
    exact Nat.mod_lt _ hA
  · have hpost := policy_iteration_loop_post evalFuel mdp gamma theta fuel
      (initial_policy draw mdp) polPI WPI hPI
    rw [hpost.1]
    exact himp WPI
  · have hpost := value_iteration_loop_post mdp gamma theta fuel
      (List.replicate mdp.length 0) polVI WVI hVI
    rw [hpost.1]
    constructor
    · rw [policy_constructor_length, qVals_length]
    · exact policy_constructor_mem_lt _ _ hA (qVals_row_length mdp gamma WVI)

/-- Witness for C9 on the single terminal state MDP. -/
theorem claim_C9_witness :
    ((policy_improvement [0] singleTerminal 1).length = singleTerminal.length ∧
      ∀ a ∈ policy_improvement [0] singleTerminal 1, a < action_space singleTerminal) ∧
    ((initial_policy (fun _ => 0) singleTerminal).length = singleTerminal.length ∧
      ∀ a ∈ initial_policy (fun _ => 0) singleTerminal, a < action_space singleTerminal) ∧
    (policy_iteration 1 1 (fun _ => 0) singleTerminal 1 1 = some ([0], [0]) →
      ([0] : Policy).length = singleTerminal.length ∧
      ∀ a ∈ ([0] : Policy), a < action_space singleTerminal) ∧
    (value_iteration 1 singleTerminal 1 1 = some ([0], [0]) →
      ([0] : Policy).length = singleTerminal.length ∧
      ∀ a ∈ ([0] : Policy), a < action_space singleTerminal) :=
  claim_C9 singleTerminal 1 1 [0] 1 1 (fun _ => 0) [0] [0] [0] [0] (by decide)

end MDPSolve

namespace MDPSolve

/-- C6: none of the algorithms mutates the MDP.  In the state-threaded
embedding, where every call and loop iteration passes the MDP along and
returns it, each algorithm returns the MDP it was given — the transition
table after the call is identical to the one before — and computes the same
result as the plain (read-only) embedding. -/
theorem claim_C6 (fuel evalFuel : ℕ) (pi : Policy) (mdp : MDP) (gamma theta : ℚ)
    (V : ValueFn) (draw : ℕ → ℕ) :
    (policy_evaluation_fr fuel pi mdp gamma theta).2 = mdp ∧
    (policy_evaluation_fr fuel pi mdp gamma theta).1 =
      policy_evaluation fuel pi mdp gamma theta ∧
    (policy_improvement_fr V mdp gamma).2 = mdp ∧
    (policy_improvement_fr V mdp gamma).1 = policy_improvement V mdp gamma ∧
    (value_iteration_fr fuel mdp gamma theta).2 = mdp ∧
    (value_iteration_fr fuel mdp gamma theta).1 = value_iteration fuel mdp gamma theta ∧
    (policy_iteration_fr fuel evalFuel draw mdp gamma theta).2 = mdp ∧
    (policy_iteration_fr fuel evalFuel draw mdp gamma theta).1 =
      policy_iteration fuel evalFuel draw mdp gamma theta := by
  have h1 := policy_evaluation_loop_fr_spec pi mdp gamma theta fuel
    (List.replicate mdp.length 0)
  have h2 := value_iteration_loop_fr_spec mdp gamma theta fuel
    (List.replicate mdp.length 0)
  have h3 := policy_iteration_loop_fr_spec evalFuel mdp gamma theta fuel
    (initial_policy draw mdp)
  exact ⟨h1.1, h1.2, rfl, rfl, h2.1, h2.2, h3.1, h3.2⟩

end MDPSolve

namespace MDPSolve

/-- Full Slippery Bandit Walk policy-iteration run from initial policy
`[0, 0, 0, 0, 0]`, checked against the expected output. -/
theorem sbw_run_00000 :
    sbwRunCheck (policy_iteration_loop 40 300 slippery_bandit_walk 1 theta0
      [0, 0, 0, 0, 0]) = true := by
  with_unfolding_all rfl

/-- Full Slippery Bandit Walk policy-iteration run from initial policy
`[0, 0, 0, 0, 1]`, checked against the expected output. -/
theorem sbw_run_00001 :
    sbwRunCheck (policy_iteration_loop 40 300 slippery_bandit_walk 1 theta0
      [0, 0, 0, 0, 1]) = true := by
  with_unfolding_all rfl

/-- Full Slippery Bandit Walk policy-iteration run from initial policy
`[0, 0, 0, 1, 0]`, checked against the expected output. -/
theorem sbw_run_00010 :
    sbwRunCheck (policy_iteration_loop 40 300 slippery_bandit_walk 1 theta0
      [0, 0, 0, 1, 0]) = true := by
  with_unfolding_all rfl

/-- Full Slippery Bandit Walk policy-iteration run from initial policy
`[0, 0, 0, 1, 1]`, checked against the expected output. -/
theorem sbw_run_00011 :
    sbwRunCheck (policy_iteration_loop 40 300 slippery_bandit_walk 1 theta0
      [0, 0, 0, 1, 1]) = true := by
  with_unfolding_all rfl

/-- Full Slippery Bandit Walk policy-iteration run from initial policy
`[0, 0, 1, 0, 0]`, checked against the expected output. -/
theorem sbw_run_00100 :
    sbwRunCheck (policy_iteration_loop 40 300 slippery_bandit_walk 1 theta0
      [0, 0, 1, 0, 0]) = true := by
  with_unfolding_all rfl

/-- Full Slippery Bandit Walk policy-iteration run from initial policy
`[0, 0, 1, 0, 1]`, checked against the expected output. -/
theorem sbw_run_00101 :
    sbwRunCheck (policy_iteration_loop 40 300 slippery_bandit_walk 1 theta0
      [0, 0, 1, 0, 1]) = true := by
  with_unfolding_all rfl

/-- Full Slippery Bandit Walk policy-iteration run from initial policy
`[0, 0, 1, 1, 0]`, checked against the expected output. -/
theorem sbw_run_00110 :
    sbwRunCheck (policy_iteration_loop 40 300 slippery_bandit_walk 1 theta0
      [0, 0, 1, 1, 0]) = true := by
  with_unfolding_all rfl

/-- Full Slippery Bandit Walk policy-iteration run from initial policy
`[0, 0, 1, 1, 1]`, checked against the expected output. -/
theorem sbw_run_00111 :
    sbwRunCheck (policy_iteration_loop 40 300 slippery_bandit_walk 1 theta0
      [0, 0, 1, 1, 1]) = true := by
  with_unfolding_all rfl

/-- Full Slippery Bandit Walk policy-iteration run from initial policy
`[0, 1, 0, 0, 0]`, checked against the expected output. -/
theorem sbw_run_01000 :
    sbwRunCheck (policy_iteration_loop 40 300 slippery_bandit_walk 1 theta0
      [0, 1, 0, 0, 0]) = true := by
  with_unfolding_all rfl

/-- Full Slippery Bandit Walk policy-iteration run from initial policy
`[0, 1, 0, 0, 1]`, checked against the expected output. -/
theorem sbw_run_01001 :
    sbwRunCheck (policy_iteration_loop 40 300 slippery_bandit_walk 1 theta0
      [0, 1, 0, 0, 1]) = true := by
  with_unfolding_all rfl

/-- Full Slippery Bandit Walk policy-iteration run from initial policy
`[0, 1, 0, 1, 0]`, checked against the expected output. -/
theorem sbw_run_01010 :
    sbwRunCheck (policy_iteration_loop 40 300 slippery_bandit_walk 1 theta0
      [0, 1, 0, 1, 0]) = true := by
  with_unfolding_all rfl

/-- Full Slippery Bandit Walk policy-iteration run from initial policy
`[0, 1, 0, 1, 1]`, checked against the expected output. -/
theorem sbw_run_01011 :
    sbwRunCheck (policy_iteration_loop 40 300 slippery_bandit_walk 1 theta0
      [0, 1, 0, 1, 1]) = true := by
  with_unfolding_all rfl

/-- Full Slippery Bandit Walk policy-iteration run from initial policy
`[0, 1, 1, 0, 0]`, checked against the expected output. -/
theorem sbw_run_01100 :
    sbwRunCheck (policy_iteration_loop 40 300 slippery_bandit_walk 1 theta0
      [0, 1, 1, 0, 0]) = true := by
  with_unfolding_all rfl

/-- Full Slippery Bandit Walk policy-iteration run from initial policy
`[0, 1, 1, 0, 1]`, checked against the expected output. -/
theorem sbw_run_01101 :
    sbwRunCheck (policy_iteration_loop 40 300 slippery_bandit_walk 1 theta0
      [0, 1, 1, 0, 1]) = true := by
  with_unfolding_all rfl

/-- Full Slippery Bandit Walk policy-iteration run from initial policy
`[0, 1, 1, 1, 0]`, checked against the expected output. -/
theorem sbw_run_01110 :
    sbwRunCheck (policy_iteration_loop 40 300 slippery_bandit_walk 1 theta0
      [0, 1, 1, 1, 0]) = true := by
  with_unfolding_all rfl

/-- Full Slippery Bandit Walk policy-iteration run from initial policy
`[0, 1, 1, 1, 1]`, checked against the expected output. -/
theorem sbw_run_01111 :
    sbwRunCheck (policy_iteration_loop 40 300 slippery_bandit_walk 1 theta0
      [0, 1, 1, 1, 1]) = true := by
  with_unfolding_all rfl

/-- Full Slippery Bandit Walk policy-iteration run from initial policy
`[1, 0, 0, 0, 0]`, checked against the expected output. -/
theorem sbw_run_10000 :
    sbwRunCheck (policy_iteration_loop 40 300 slippery_bandit_walk 1 theta0
      [1, 0, 0, 0, 0]) = true := by
  with_unfolding_all rfl

/-- Full Slippery Bandit Walk policy-iteration run from initial policy
`[1, 0, 0, 0, 1]`, checked against the expected output. -/
theorem sbw_run_10001 :
    sbwRunCheck (policy_iteration_loop 40 300 slippery_bandit_walk 1 theta0
      [1, 0, 0, 0, 1]) = true := by
  with_unfolding_all rfl

/-- Full Slippery Bandit Walk policy-iteration run from initial policy
`[1, 0, 0, 1, 0]`, checked against the expected output. -/
theorem sbw_run_10010 :
    sbwRunCheck (policy_iteration_loop 40 300 slippery_bandit_walk 1 theta0
      [1, 0, 0, 1, 0]) = true := by
  with_unfolding_all rfl

/-- Full Slippery Bandit Walk policy-iteration run from initial policy
`[1, 0, 0, 1, 1]`, checked against the expected output. -/
theorem sbw_run_10011 :
    sbwRunCheck (policy_iteration_loop 40 300 slippery_bandit_walk 1 theta0
      [1, 0, 0, 1, 1]) = true := by
  with_unfolding_all rfl

/-- Full Slippery Bandit Walk policy-iteration run from initial policy
`[1, 0, 1, 0, 0]`, checked against the expected output. -/
theorem sbw_run_10100 :
    sbwRunCheck (policy_iteration_loop 40 300 slippery_bandit_walk 1 theta0
      [1, 0, 1, 0, 0]) = true := by
  with_unfolding_all rfl

/-- Full Slippery Bandit Walk policy-iteration run from initial policy
`[1, 0, 1, 0, 1]`, checked against the expected output. -/
theorem sbw_run_10101 :
    sbwRunCheck (policy_iteration_loop 40 300 slippery_bandit_walk 1 theta0
      [1, 0, 1, 0, 1]) = true := by
  with_unfolding_all rfl

/-- Full Slippery Bandit Walk policy-iteration run from initial policy
`[1, 0, 1, 1, 0]`, checked against the expected output. -/
theorem sbw_run_10110 :
    sbwRunCheck (policy_iteration_loop 40 300 slippery_bandit_walk 1 theta0
      [1, 0, 1, 1, 0]) = true := by
  with_unfolding_all rfl

/-- Full Slippery Bandit Walk policy-iteration run from initial policy
`[1, 0, 1, 1, 1]`, checked against the expected output. -/
theorem sbw_run_10111 :
    sbwRunCheck (policy_iteration_loop 40 300 slippery_bandit_walk 1 theta0
      [1, 0, 1, 1, 1]) = true := by
  with_unfolding_all rfl

/-- Full Slippery Bandit Walk policy-iteration run from initial policy
`[1, 1, 0, 0, 0]`, checked against the expected output. -/
theorem sbw_run_11000 :
    sbwRunCheck (policy_iteration_loop 40 300 slippery_bandit_walk 1 theta0
      [1, 1, 0, 0, 0]) = true := by
  with_unfolding_all rfl

/-- Full Slippery Bandit Walk policy-iteration run from initial policy
`[1, 1, 0, 0, 1]`, checked against the expected output. -/
theorem sbw_run_11001 :
    sbwRunCheck (policy_iteration_loop 40 300 slippery_bandit_walk 1 theta0
      [1, 1, 0, 0, 1]) = true := by
  with_unfolding_all rfl

/-- Full Slippery Bandit Walk policy-iteration run from initial policy
`[1, 1, 0, 1, 0]`, checked against the expected output. -/
theorem sbw_run_11010 :
    sbwRunCheck (policy_iteration_loop 40 300 slippery_bandit_walk 1 theta0
      [1, 1, 0, 1, 0]) = true := by
  with_unfolding_all rfl

/-- Full Slippery Bandit Walk policy-iteration run from initial policy
`[1, 1, 0, 1, 1]`, checked against the expected output. -/
theorem sbw_run_11011 :
    sbwRunCheck (policy_iteration_loop 40 300 slippery_bandit_walk 1 theta0
      [1, 1, 0, 1, 1]) = true := by
  with_unfolding_all rfl

/-- Full Slippery Bandit Walk policy-iteration run from initial policy
`[1, 1, 1, 0, 0]`, checked against the expected output. -/
theorem sbw_run_11100 :
    sbwRunCheck (policy_iteration_loop 40 300 slippery_bandit_walk 1 theta0
      [1, 1, 1, 0, 0]) = true := by
  with_unfolding_all rfl

/-- Full Slippery Bandit Walk policy-iteration run from initial policy
`[1, 1, 1, 0, 1]`, checked against the expected output. -/
theorem sbw_run_11101 :
    sbwRunCheck (policy_iteration_loop 40 300 slippery_bandit_walk 1 theta0
      [1, 1, 1, 0, 1]) = true := by
  with_unfolding_all rfl

/-- Full Slippery Bandit Walk policy-iteration run from initial policy
`[1, 1, 1, 1, 0]`, checked against the expected output. -/
theorem sbw_run_11110 :
    sbwRunCheck (policy_iteration_loop 40 300 slippery_bandit_walk 1 theta0
      [1, 1, 1, 1, 0]) = true := by
  with_unfolding_all rfl

/-- Full Slippery Bandit Walk policy-iteration run from initial policy
`[1, 1, 1, 1, 1]`, checked against the expected output. -/
theorem sbw_run_11111 :
    sbwRunCheck (policy_iteration_loop 40 300 slippery_bandit_walk 1 theta0
      [1, 1, 1, 1, 1]) = true := by
  with_unfolding_all rfl

/-- Full Slippery Bandit Walk value-iteration run, checked against the
expected output. -/
theorem sbw_vi_run :
    sbwRunCheck (value_iteration 200 slippery_bandit_walk 1 theta0) = true := by
  with_unfolding_all rfl

/-- Soundness of the run checker: a `true` check means the run returned the
expected optimal policy and a value function within `1/1000` per state of
the spec's four-decimal target. -/
theorem sbwRunCheck_sound (r : Option (Policy × ValueFn)) (h : sbwRunCheck r = true) :
    r.map Prod.fst = some sbwOptimalPolicy ∧
    maxAbsDiff ((r.getD ([], [])).2) sbwValueTarget < 1/1000 := by
  cases r with
  | none => simp [sbwRunCheck] at h
  | some pv =>
    obtain ⟨p, V⟩ := pv
    simp only [sbwRunCheck, Bool.and_eq_true, beq_iff_eq, decide_eq_true_eq] at h
    obtain ⟨hp, hV⟩ := h
    subst hp
    exact ⟨rfl, hV⟩

/-- C8: on the Slippery Bandit Walk with `gamma = 1`, `theta = 1e-10`, both
solvers return the optimal policy `[0, 1, 1, 1, 0]` and a value function
within `1/1000` per state of `[0, 0.7529, 0.9412, 0.9882, 0]`:
`policy_iteration` for every random draw (hence every initial policy the
source can construct), and `value_iteration`. -/
theorem claim_C8 :
    (∀ draw : ℕ → ℕ,
      (policy_iteration 40 300 draw slippery_bandit_walk 1 theta0).map Prod.fst =
        some sbwOptimalPolicy ∧
      maxAbsDiff (((policy_iteration 40 300 draw slippery_bandit_walk 1 theta0).getD
        ([], [])).2) sbwValueTarget < 1/1000) ∧
    (value_iteration 200 slippery_bandit_walk 1 theta0).map Prod.fst =
      some sbwOptimalPolicy ∧
    maxAbsDiff (((value_iteration 200 slippery_bandit_walk 1 theta0).getD
      ([], [])).2) sbwValueTarget < 1/1000 := by
  refine ⟨fun draw => ?_, (sbwRunCheck_sound _ sbw_vi_run).1,
    (sbwRunCheck_sound _ sbw_vi_run).2⟩
  have hrw : policy_iteration 40 300 draw slippery_bandit_walk 1 theta0 =
      policy_iteration_loop 40 300 slippery_bandit_walk 1 theta0
        [draw 0 % 2, draw 1 % 2, draw 2 % 2, draw 3 % 2, draw 4 % 2] := rfl
  rw [hrw]
  rcases Nat.mod_two_eq_zero_or_one (draw 0) with h0 | h0
  · rcases Nat.mod_two_eq_zero_or_one (draw 1) with h1 | h1
    · rcases Nat.mod_two_eq_zero_or_one (draw 2) with h2 | h2
      · rcases Nat.mod_two_eq_zero_or_one (draw 3) with h3 | h3
        · rcases Nat.mod_two_eq_zero_or_one (draw 4) with h4 | h4
          · rw [h0, h1, h2, h3, h4]
            exact sbwRunCheck_sound _ sbw_run_00000
          · rw [h0, h1, h2, h3, h4]
            exact sbwRunCheck_sound _ sbw_run_00001
        · rcases Nat.mod_two_eq_zero_or_one (draw 4) with h4 | h4
          · rw [h0, h1, h2, h3, h4]
            exact sbwRunCheck_sound _ sbw_run_00010
          · rw [h0, h1, h2, h3, h4]
            exact sbwRunCheck_sound _ sbw_run_00011
      · rcases Nat.mod_two_eq_zero_or_one (draw 3) with h3 | h3
        · rcases Nat.mod_two_eq_zero_or_one (draw 4) with h4 | h4
          · rw [h0, h1, h2, h3, h4]
            exact sbwRunCheck_sound _ sbw_run_00100
          · rw [h0, h1, h2, h3, h4]
            exact sbwRunCheck_sound _ sbw_run_00101
        · rcases Nat.mod_two_eq_zero_or_one (draw 4) with h4 | h4
          · rw [h0, h1, h2, h3, h4]
            exact sbwRunCheck_sound _ sbw_run_00110
          · rw [h0, h1, h2, h3, h4]
            exact sbwRunCheck_sound _ sbw_run_00111
    · rcases Nat.mod_two_eq_zero_or_one (draw 2) with h2 | h2
      · rcases Nat.mod_two_eq_zero_or_one (draw 3) with h3 | h3
        · rcases Nat.mod_two_eq_zero_or_one (draw 4) with h4 | h4
          · rw [h0, h1, h2, h3, h4]
            exact sbwRunCheck_sound _ sbw_run_01000
          · rw [h0, h1, h2, h3, h4]
            exact sbwRunCheck_sound _ sbw_run_01001
        · rcases Nat.mod_two_eq_zero_or_one (draw 4) with h4 | h4
          · rw [h0, h1, h2, h3, h4]
            exact sbwRunCheck_sound _ sbw_run_01010
          · rw [h0, h1, h2, h3, h4]
            exact sbwRunCheck_sound _ sbw_run_01011
      · rcases Nat.mod_two_eq_zero_or_one (draw 3) with h3 | h3
        · rcases Nat.mod_two_eq_zero_or_one (draw 4) with h4 | h4
          · rw [h0, h1, h2, h3, h4]
            exact sbwRunCheck_sound _ sbw_run_01100
          · rw [h0, h1, h2, h3, h4]
            exact sbwRunCheck_sound _ sbw_run_01101
        · rcases Nat.mod_two_eq_zero_or_one (draw 4) with h4 | h4
          · rw [h0, h1, h2, h3, h4]
            exact sbwRunCheck_sound _ sbw_run_01110
          · rw [h0, h1, h2, h3, h4]
            exact sbwRunCheck_sound _ sbw_run_01111
  · rcases Nat.mod_two_eq_zero_or_one (draw 1) with h1 | h1
    · rcases Nat.mod_two_eq_zero_or_one (draw 2) with h2 | h2
      · rcases Nat.mod_two_eq_zero_or_one (draw 3) with h3 | h3
        · rcases Nat.mod_two_eq_zero_or_one (draw 4) with h4 | h4
          · rw [h0, h1, h2, h3, h4]
            exact sbwRunCheck_sound _ sbw_run_10000
          · rw [h0, h1, h2, h3, h4]
            exact sbwRunCheck_sound _ sbw_run_10001
        · rcases Nat.mod_two_eq_zero_or_one (draw 4) with h4 | h4
          · rw [h0, h1, h2, h3, h4]
            exact sbwRunCheck_sound _ sbw_run_10010
          · rw [h0, h1, h2, h3, h4]
            exact sbwRunCheck_sound _ sbw_run_10011
      · rcases Nat.mod_two_eq_zero_or_one (draw 3) with h3 | h3
        · rcases Nat.mod_two_eq_zero_or_one (draw 4) with h4 | h4
          · rw [h0, h1, h2, h3, h4]
            exact sbwRunCheck_sound _ sbw_run_10100
          · rw [h0, h1, h2, h3, h4]
            exact sbwRunCheck_sound _ sbw_run_10101
        · rcases Nat.mod_two_eq_zero_or_one (draw 4) with h4 | h4
          · rw [h0, h1, h2, h3, h4]
            exact sbwRunCheck_sound _ sbw_run_10110
          · rw [h0, h1, h2, h3, h4]
            exact sbwRunCheck_sound _ sbw_run_10111
    · rcases Nat.mod_two_eq_zero_or_one (draw 2) with h2 | h2
      · rcases Nat.mod_two_eq_zero_or_one (draw 3) with h3 | h3
        · rcases Nat.mod_two_eq_zero_or_one (draw 4) with h4 | h4
          · rw [h0, h1, h2, h3, h4]
            exact sbwRunCheck_sound _ sbw_run_11000
          · rw [h0, h1, h2, h3, h4]
            exact sbwRunCheck_sound _ sbw_run_11001
        · rcases Nat.mod_two_eq_zero_or_one (draw 4) with h4 | h4
          · rw [h0, h1, h2, h3, h4]
            exact sbwRunCheck_sound _ sbw_run_11010
          · rw [h0, h1, h2, h3, h4]
            exact sbwRunCheck_sound _ sbw_run_11011
      · rcases Nat.mod_two_eq_zero_or_one (draw 3) with h3 | h3
        · rcases Nat.mod_two_eq_zero_or_one (draw 4) with h4 | h4
          · rw [h0, h1, h2, h3, h4]
            exact sbwRunCheck_sound _ sbw_run_11100
          · rw [h0, h1, h2, h3, h4]
            exact sbwRunCheck_sound _ sbw_run_11101
        · rcases Nat.mod_two_eq_zero_or_one (draw 4) with h4 | h4
          · rw [h0, h1, h2, h3, h4]
            exact sbwRunCheck_sound _ sbw_run_11110
          · rw [h0, h1, h2, h3, h4]
            exact sbwRunCheck_sound _ sbw_run_11111

end MDPSolve
